import Mathlib

/-!
Verification of the sc-component-manager core against its C++ sources.

The development shallowly embeds the graph queries and the download
orchestration of the component manager:

* `ScMemoryContext` models the read-only view of the sc-memory knowledge
  store that the code queries through `Iterator3` / `Iterator5` /
  `HelperCheckEdge` / `GetLinkContent` / `HelperGetSystemIdtf`.
* `componentUtils.SearchUtils` and `componentUtils.InstallUtils` embed the
  functions of `src/manager/utils/sc_component_utils.cpp`; exceptions thrown
  with `SC_THROW_EXCEPTION` become `Except.error` values.
* `DownloaderHandler` embeds
  `src/manager/commands/command_init/repos_downloader/downloader_handler.cpp`;
  its filesystem and network side effects are recorded in a `DownloadResult`
  trace (directories requested from `sc_fs_mkdirs`, git fetches performed).
-/

namespace ScCompMgr

/-- An sc-memory element address.  `ScAddr()` (the default-constructed,
invalid address) is modelled by id 0. -/
structure ScAddr where
  id : Nat
deriving DecidableEq, Repr

/-- The default-constructed invalid address `ScAddr::Empty`. -/
def ScAddr.Empty : ScAddr := ⟨0⟩

/-- `ScAddr::IsValid`: an address is valid iff it is not the null address. -/
def ScAddr.IsValid (a : ScAddr) : Bool := decide (a.id ≠ 0)

/-- The fragment of `ScType` the embedded code uses: element-type bits for
node/link, constancy and tuple-ness.  A type used as an iterator filter
matches an element type when every bit set in the filter is set in the
element's type. -/
structure ScType where
  isNode : Bool
  isLink : Bool
  isConst : Bool
  isTuple : Bool
deriving DecidableEq, Repr

/-- `ScType::NodeConst`. -/
def ScType.NodeConst : ScType := ⟨true, false, true, false⟩

/-- `ScType::LinkConst`. -/
def ScType.LinkConst : ScType := ⟨false, true, true, false⟩

/-- `ScType::NodeTuple` (a constant tuple node). -/
def ScType.NodeTuple : ScType := ⟨true, false, true, true⟩

/-- `ScType::Unknown`: the empty filter, matched by every element. -/
def ScType.Unknown : ScType := ⟨false, false, false, false⟩

/-- Filter subsumption: `filter.subsumes t` holds when an element of type `t`
is returned by an iterator whose type argument is `filter`. -/
def ScType.subsumes (filter t : ScType) : Bool :=
  (!filter.isNode || t.isNode) && (!filter.isLink || t.isLink) &&
  (!filter.isConst || t.isConst) && (!filter.isTuple || t.isTuple)

/-- A positive permanent access arc (`ScType::EdgeAccessConstPosPerm`) of the
store, together with the role relations whose own access arcs mark it (used
by `rrel_1` lookups). -/
structure AccessEdge where
  src : ScAddr
  tgt : ScAddr
  roles : List ScAddr
deriving DecidableEq, Repr

/-- A common arc (`ScType::EdgeDCommonConst`) of the store, together with the
non-role relations whose positive permanent access arcs mark it. -/
structure CommonEdge where
  src : ScAddr
  tgt : ScAddr
  rels : List ScAddr
deriving DecidableEq, Repr

/-- The read-only view of the sc-memory store used by the embedded code: the
element types, the two arc tables (in iteration order), link contents and
system identifiers. -/
structure ScMemoryContext where
  elemType : ScAddr → ScType
  accessEdges : List AccessEdge
  commonEdges : List CommonEdge
  linkContent : ScAddr → String
  systemIdtf : ScAddr → String

namespace keynodes

/-- Modelled from the spec: the keynode constants of
`ScComponentManagerKeynodes.hpp` (a header outside the provided sources) are
distinct fixed sc-addresses; classification tags and relation names are
global keynode constants. -/
def nrel_component_address : ScAddr := ⟨1⟩

/-- Keynode `nrel_component_dependencies` (dependency-set relation). -/
def nrel_component_dependencies : ScAddr := ⟨2⟩

/-- Keynode `nrel_installation_method`. -/
def nrel_installation_method : ScAddr := ⟨3⟩

/-- Keynode `nrel_alternative_addresses`. -/
def nrel_alternative_addresses : ScAddr := ⟨4⟩

/-- Keynode `nrel_repository_address`. -/
def nrel_repository_address : ScAddr := ⟨5⟩

/-- Keynode `nrel_installation_script`. -/
def nrel_installation_script : ScAddr := ⟨6⟩

/-- Keynode `concept_reusable_component`. -/
def concept_reusable_component : ScAddr := ⟨7⟩

/-- Keynode `concept_repository`. -/
def concept_repository : ScAddr := ⟨8⟩

/-- Keynode `concept_reusable_component_specification`. -/
def concept_reusable_component_specification : ScAddr := ⟨9⟩

/-- Keynode `concept_github_url` (source-control hosting-scheme tag). -/
def concept_github_url : ScAddr := ⟨10⟩

/-- Keynode `concept_google_drive_url` (cloud-drive hosting-scheme tag). -/
def concept_google_drive_url : ScAddr := ⟨11⟩

/-- Core keynode `rrel_1` of sc-agents-common, marking the primary member of
an ordered set. -/
def rrel_1 : ScAddr := ⟨12⟩

end keynodes

/-- `ScMemoryContext::Iterator5(src, EdgeDCommonConst, targetType,
EdgeAccessConstPosPerm, rel)`: the targets, in iteration order, of common
arcs from `src` whose target's type matches `targetType` and which are
marked by relation `rel`. -/
def iterator5CommonTargets (ctx : ScMemoryContext) (src : ScAddr)
    (targetType : ScType) (rel : ScAddr) : List ScAddr :=
  (ctx.commonEdges.filter fun e =>
    e.src == src && targetType.subsumes (ctx.elemType e.tgt) && e.rels.contains rel).map
    fun e => e.tgt

/-- `ScMemoryContext::Iterator3(src, EdgeAccessConstPosPerm, targetType)`:
the targets, in iteration order, of positive permanent access arcs from
`src` whose target's type matches `targetType`. -/
def iterator3Targets (ctx : ScMemoryContext) (src : ScAddr)
    (targetType : ScType) : List ScAddr :=
  (ctx.accessEdges.filter fun e =>
    e.src == src && targetType.subsumes (ctx.elemType e.tgt)).map
    fun e => e.tgt

/-- `Iterator5(src, EdgeAccessConstPosPerm, targetType,
EdgeAccessConstPosPerm, role)`: access-arc targets whose arc is marked by
the given role relation (used by `IteratorUtils::getFirstFromSet`). -/
def iterator5AccessWithRole (ctx : ScMemoryContext) (src : ScAddr)
    (targetType : ScType) (role : ScAddr) : List ScAddr :=
  (ctx.accessEdges.filter fun e =>
    e.src == src && targetType.subsumes (ctx.elemType e.tgt) && e.roles.contains role).map
    fun e => e.tgt

/-- `ScMemoryContext::HelperCheckEdge(src, tgt, EdgeAccessConstPosPerm)`:
whether a positive permanent access arc from `src` to `tgt` exists. -/
def helperCheckEdge (ctx : ScMemoryContext) (src tgt : ScAddr) : Bool :=
  ctx.accessEdges.any fun e => e.src == src && e.tgt == tgt

/-- `utils::IteratorUtils::getAllWithType(ctx, set, scType)` of
sc-agents-common: all access-arc targets of `set` with the given type. -/
def getAllWithType (ctx : ScMemoryContext) (set : ScAddr) (scType : ScType) :
    List ScAddr :=
  iterator3Targets ctx set scType

/-- `utils::CommonUtils::isEmpty(ctx, set)` of sc-agents-common: `set` has no
outgoing positive permanent access arc. -/
def isEmpty (ctx : ScMemoryContext) (set : ScAddr) : Bool :=
  (iterator3Targets ctx set ScType.Unknown).isEmpty

/-- `utils::IteratorUtils::getFirstFromSet(ctx, set, true)` of
sc-agents-common (the strict branch taken by the call sites here): the first
member of `set` whose membership arc is marked by `rrel_1`, or the invalid
address when there is none. -/
def getFirstFromSet (ctx : ScMemoryContext) (set : ScAddr) : ScAddr :=
  match iterator5AccessWithRole ctx set ScType.Unknown keynodes.rrel_1 with
  | [] => ScAddr.Empty
  | a :: _ => a

/-- `utils::IteratorUtils::getAnyFromSet(ctx, set)` of sc-agents-common: the
first member of `set` in iteration order, or the invalid address. -/
def getAnyFromSet (ctx : ScMemoryContext) (set : ScAddr) : ScAddr :=
  match iterator3Targets ctx set ScType.Unknown with
  | [] => ScAddr.Empty
  | a :: _ => a

namespace componentUtils

/-- The exceptions `SearchUtils::GetSpecificationAddress` can throw, as error
values: `ExceptionItemNotFound` for a missing alternative-addresses set,
`ExceptionAssert` for an empty set and for an address node without links. -/
inductive SpecAddressError
  | noAlternativeAddresses
  | emptyAlternativeSet
  | noAddressLinks
deriving DecidableEq, Repr

/-- The exceptions `SearchUtils::GetRepositoryAddress` can throw, as error
values. -/
inductive RepoAddressError
  | noRepositoryAddress
  | noAddressLinks
deriving DecidableEq, Repr

/-- `SearchUtils::GetComponentAddress`: first link related to the component
by `nrel_component_address`, or the invalid address. -/
def SearchUtils.GetComponentAddress (ctx : ScMemoryContext)
    (componentAddr : ScAddr) : ScAddr :=
  match iterator5CommonTargets ctx componentAddr ScType.LinkConst
      keynodes.nrel_component_address with
  | [] => ScAddr.Empty
  | a :: _ => a

/-- `SearchUtils::GetComponentDependencies`: for every dependency set related
to the component by `nrel_component_dependencies`, append all its constant
node members to the accumulated vector. -/
def SearchUtils.GetComponentDependencies (ctx : ScMemoryContext)
    (componentAddr : ScAddr) : List ScAddr :=
  (iterator5CommonTargets ctx componentAddr ScType.NodeConst
      keynodes.nrel_component_dependencies).foldl
    (fun componentDependencies componentDependenciesSet =>
      componentDependencies ++
        getAllWithType ctx componentDependenciesSet ScType.NodeConst)
    []

/-- `SearchUtils::GetComponentInstallationMethod`: first node related to the
component by `nrel_installation_method`, or the invalid address. -/
def SearchUtils.GetComponentInstallationMethod (ctx : ScMemoryContext)
    (componentAddr : ScAddr) : ScAddr :=
  match iterator5CommonTargets ctx componentAddr ScType.NodeConst
      keynodes.nrel_installation_method with
  | [] => ScAddr.Empty
  | a :: _ => a

/-- The address-selection step of `SearchUtils::GetSpecificationAddress`:
`getFirstFromSet(ctx, set, true)`, falling back to `getAnyFromSet` when no
`rrel_1`-marked member exists. -/
def chosenAddress (ctx : ScMemoryContext) (set : ScAddr) : ScAddr :=
  let first := getFirstFromSet ctx set
  if first.IsValid then first else getAnyFromSet ctx set

/-- `SearchUtils::GetSpecificationAddress`: find the alternative-addresses
set of the specification (throwing when absent or empty), select an address
node from it, and return its constant-link children (throwing when there are
none). -/
def SearchUtils.GetSpecificationAddress (ctx : ScMemoryContext)
    (componentSpecificationAddr : ScAddr) :
    Except SpecAddressError (List ScAddr) :=
  match iterator5CommonTargets ctx componentSpecificationAddr ScType.NodeTuple
      keynodes.nrel_alternative_addresses with
  | [] => .error .noAlternativeAddresses
  | alternativeAddressesSet :: _ =>
    if isEmpty ctx alternativeAddressesSet then .error .emptyAlternativeSet
    else
      let specificationAddressAddr := chosenAddress ctx alternativeAddressesSet
      let specificationAddressLinks :=
        getAllWithType ctx specificationAddressAddr ScType.LinkConst
      if specificationAddressLinks.isEmpty then .error .noAddressLinks
      else .ok specificationAddressLinks

/-- `SearchUtils::GetRepositoryAddress`: find the repository-address node
(throwing when absent) and return its first constant-link child (throwing
when there is none). -/
def SearchUtils.GetRepositoryAddress (ctx : ScMemoryContext)
    (repositoryAddr : ScAddr) : Except RepoAddressError ScAddr :=
  match iterator5CommonTargets ctx repositoryAddr ScType.NodeConst
      keynodes.nrel_repository_address with
  | [] => .error .noRepositoryAddress
  | repositoryAddressAddr :: _ =>
    match iterator3Targets ctx repositoryAddressAddr ScType.LinkConst with
    | [] => .error .noAddressLinks
    | addressLinkAddr :: _ => .ok addressLinkAddr

/-- `InstallUtils::IsReusable`: the component is a member of
`concept_reusable_component` (checked with
`Iterator3(concept_reusable_component, EdgeAccessConstPosPerm, comp)`). -/
def InstallUtils.IsReusable (ctx : ScMemoryContext) (componentAddr : ScAddr) :
    Bool :=
  !(ctx.accessEdges.filter fun e =>
      e.src == keynodes.concept_reusable_component && e.tgt == componentAddr).isEmpty

/-- `InstallUtils::GetInstallScripts`: iterate the links related to the
component by `nrel_installation_script`, pushing every non-empty link
content. -/
def InstallUtils.GetInstallScripts (ctx : ScMemoryContext)
    (componentAddr : ScAddr) : List String :=
  (iterator5CommonTargets ctx componentAddr ScType.LinkConst
      keynodes.nrel_installation_script).foldl
    (fun scripts scriptAddrs =>
      let script := ctx.linkContent scriptAddrs
      if script == "" then scripts else scripts ++ [script])
    []

/-- `InstallUtils::IsComponentInstallationMethodValid`: the installation
method found by `GetComponentInstallationMethod` is a valid address. -/
def InstallUtils.IsComponentInstallationMethodValid (ctx : ScMemoryContext)
    (componentAddr : ScAddr) : Bool :=
  (SearchUtils.GetComponentInstallationMethod ctx componentAddr).IsValid

end componentUtils

/-- Modelled from the spec: `SpecificationConstants::DIRECTORY_DELIMETR` is
declared in a header outside the provided sources; the spec builds the
destination as `baseDownloadDir / humanReadableComponentId`, so the
delimiter is the path separator. -/
def DIRECTORY_DELIMETR : String := "/"

/-- Modelled from the spec: `SpecificationConstants::SPECIFICATION_FILENAME`
(header outside the provided sources), the local specification filename
appended for a reusable specification. -/
def SPECIFICATION_FILENAME : String := "specification.scs"

/-- Modelled from the spec: `GitHubConstants::SVN_TRUNK` (header outside the
provided sources), the source-control subtree-export path segment of the
GitHub scheme. -/
def SVN_TRUNK : String := "trunk"

/-- The ambient state `DownloaderHandler::Download` reads besides the graph:
the base download directory `m_downloadDir` and the outcome of
`sc_fs_mkdirs` on each requested path. -/
structure DownloaderEnv where
  downloadDir : String
  mkdirs : String → Bool

/-- The failure reasons `DownloaderHandler::Download` can report: the two
`SC_LOG_ERROR`-and-return paths, and the exceptions propagating out of the
two address lookups. -/
inductive DownloadError
  | classNotFound
  | dirCreateFailed
  | specLookup (e : componentUtils.SpecAddressError)
  | repoLookup (e : componentUtils.RepoAddressError)
deriving DecidableEq, Repr

/-- The observable behaviour of one `DownloaderHandler::Download` call: the
paths passed to `sc_fs_mkdirs`, the `(url, destination)` pairs handed to
`DownloaderGit::Download`, and the failure reason if any. -/
structure DownloadResult where
  mkdirCalls : List String
  gitDownloads : List (String × String)
  error : Option DownloadError
deriving DecidableEq, Repr

namespace DownloaderHandler

/-- `DownloaderHandler::getDownloadableClass`: first of
`{concept_repository, concept_reusable_component_specification}` holding the
node, or the invalid address. -/
def getDownloadableClass (ctx : ScMemoryContext) (nodeAddr : ScAddr) : ScAddr :=
  let downloadableClasses := [keynodes.concept_repository,
    keynodes.concept_reusable_component_specification]
  match downloadableClasses.find? (fun c => helperCheckEdge ctx c nodeAddr) with
  | some currentClass => currentClass
  | none => ScAddr.Empty

/-- `DownloaderHandler::getUrlLinkClass`: first of
`{concept_github_url, concept_google_drive_url}` holding the link, or the
invalid address. -/
def getUrlLinkClass (ctx : ScMemoryContext) (linkAddr : ScAddr) : ScAddr :=
  let downloadableUrls := [keynodes.concept_github_url,
    keynodes.concept_google_drive_url]
  match downloadableUrls.find? (fun c => helperCheckEdge ctx c linkAddr) with
  | some currentClass => currentClass
  | none => ScAddr.Empty

/-- The final loop of `DownloaderHandler::Download` over the address links:
a link classified `concept_github_url` is fetched from
`linkContent ++ SVN_TRUNK ++ DIRECTORY_DELIMETR ++ specificationSuffix`
into `downloadPath`; every other link falls through the loop body. -/
def processLinks (ctx : ScMemoryContext) (links : List ScAddr)
    (downloadPath specificationSuffix : String) : List (String × String) :=
  links.foldl
    (fun acc currentAddressLinkAddr =>
      if getUrlLinkClass ctx currentAddressLinkAddr = keynodes.concept_github_url then
        acc ++ [(ctx.linkContent currentAddressLinkAddr ++
          (SVN_TRUNK ++ (DIRECTORY_DELIMETR ++ specificationSuffix)), downloadPath)]
      else acc)
    []

/-- `DownloaderHandler::Download`: classify the node (error return when no
downloadable class holds), create `m_downloadDir / systemIdtf` (error return
when `sc_fs_mkdirs` fails), look up the address links according to the
class, then fetch each GitHub-classified link. -/
def Download (env : DownloaderEnv) (ctx : ScMemoryContext) (nodeAddr : ScAddr) :
    DownloadResult :=
  let nodeClassAddr := getDownloadableClass ctx nodeAddr
  if nodeClassAddr.IsValid = false then
    { mkdirCalls := [], gitDownloads := [], error := some .classNotFound }
  else
    let nodeSystIdtf := ctx.systemIdtf nodeAddr
    let downloadPath := env.downloadDir ++ DIRECTORY_DELIMETR ++ nodeSystIdtf
    if env.mkdirs downloadPath = false then
      { mkdirCalls := [downloadPath], gitDownloads := [],
        error := some .dirCreateFailed }
    else if nodeClassAddr = keynodes.concept_reusable_component_specification then
      match componentUtils.SearchUtils.GetSpecificationAddress ctx nodeAddr with
      | .error e =>
        { mkdirCalls := [downloadPath], gitDownloads := [],
          error := some (.specLookup e) }
      | .ok nodeAddressLinkAddrs =>
        { mkdirCalls := [downloadPath],
          gitDownloads :=
            processLinks ctx nodeAddressLinkAddrs downloadPath SPECIFICATION_FILENAME,
          error := none }
    else if nodeClassAddr = keynodes.concept_repository then
      match componentUtils.SearchUtils.GetRepositoryAddress ctx nodeAddr with
      | .error e =>
        { mkdirCalls := [downloadPath], gitDownloads := [],
          error := some (.repoLookup e) }
      | .ok addressLinkAddr =>
        { mkdirCalls := [downloadPath],
          gitDownloads := processLinks ctx [addressLinkAddr] downloadPath "",
          error := none }
    else
      { mkdirCalls := [downloadPath], gitDownloads := [], error := none }

end DownloaderHandler

/-! Concrete store snapshots used to exercise the embedded code. -/

/-- A store with no arcs at all. -/
def ctxEmpty : ScMemoryContext where
  elemType := fun _ => ScType.NodeConst
  accessEdges := []
  commonEdges := []
  linkContent := fun _ => ""
  systemIdtf := fun _ => ""

/-- A repository component 100 whose repository address node 150 has one
link 160; the link belongs to no hosting-scheme class. -/
def ctxC1 : ScMemoryContext where
  elemType := fun a => if a.id = 160 then ScType.LinkConst else ScType.NodeConst
  accessEdges := [⟨keynodes.concept_repository, ⟨100⟩, []⟩, ⟨⟨150⟩, ⟨160⟩, []⟩]
  commonEdges := [⟨⟨100⟩, ⟨150⟩, [keynodes.nrel_repository_address]⟩]
  linkContent := fun a => if a.id = 160 then "https://example.org/repo" else ""
  systemIdtf := fun a => if a.id = 100 then "comp" else ""

/-- An environment in which every directory creation succeeds. -/
def envOk : DownloaderEnv where
  downloadDir := "/tmp/downloads"
  mkdirs := fun _ => true

/-- A reusable-specification component 100 whose alternative-addresses set
150 has one member 155 carrying one link 160; the link is classified as a
Google-Drive URL (a known tag with no downloader branch). -/
def ctxC1b : ScMemoryContext where
  elemType := fun a => if a.id = 160 then ScType.LinkConst
    else if a.id = 150 then ScType.NodeTuple else ScType.NodeConst
  accessEdges := [⟨keynodes.concept_reusable_component_specification, ⟨100⟩, []⟩,
    ⟨⟨150⟩, ⟨155⟩, []⟩, ⟨⟨155⟩, ⟨160⟩, []⟩,
    ⟨keynodes.concept_google_drive_url, ⟨160⟩, []⟩]
  commonEdges := [⟨⟨100⟩, ⟨150⟩, [keynodes.nrel_alternative_addresses]⟩]
  linkContent := fun a => if a.id = 160 then "https://drive.google.com/file" else ""
  systemIdtf := fun a => if a.id = 100 then "comp" else ""

/-- A specification 100 whose alternative-addresses set 150 has one member
155; no link is attached to 155. -/
def ctxC2 : ScMemoryContext where
  elemType := fun a => if a.id = 150 then ScType.NodeTuple else ScType.NodeConst
  accessEdges := [⟨⟨150⟩, ⟨155⟩, []⟩]
  commonEdges := [⟨⟨100⟩, ⟨150⟩, [keynodes.nrel_alternative_addresses]⟩]
  linkContent := fun _ => ""
  systemIdtf := fun _ => ""

/-- A repository 100 with address node 150 carrying one link 160. -/
def ctxC3 : ScMemoryContext where
  elemType := fun a => if a.id = 160 then ScType.LinkConst else ScType.NodeConst
  accessEdges := [⟨⟨150⟩, ⟨160⟩, []⟩]
  commonEdges := [⟨⟨100⟩, ⟨150⟩, [keynodes.nrel_repository_address]⟩]
  linkContent := fun a => if a.id = 160 then "https://example.org/repo" else ""
  systemIdtf := fun _ => ""

/-- A downloadable (repository-classified) component 100. -/
def ctxC4 : ScMemoryContext where
  elemType := fun _ => ScType.NodeConst
  accessEdges := [⟨keynodes.concept_repository, ⟨100⟩, []⟩]
  commonEdges := []
  linkContent := fun _ => ""
  systemIdtf := fun a => if a.id = 100 then "comp" else ""

/-- An environment in which every directory creation fails. -/
def envMkdirFails : DownloaderEnv where
  downloadDir := "/tmp/downloads"
  mkdirs := fun _ => false

/-- A set 150 with two members; member 156 is marked primary by `rrel_1`,
member 155 is not. -/
def ctxC6 : ScMemoryContext where
  elemType := fun _ => ScType.NodeConst
  accessEdges := [⟨⟨150⟩, ⟨155⟩, []⟩, ⟨⟨150⟩, ⟨156⟩, [keynodes.rrel_1]⟩]
  commonEdges := []
  linkContent := fun _ => ""
  systemIdtf := fun _ => ""

/-- A component 100 that is reusable and has installation method 300. -/
def ctxC8 : ScMemoryContext where
  elemType := fun _ => ScType.NodeConst
  accessEdges := [⟨keynodes.concept_reusable_component, ⟨100⟩, []⟩]
  commonEdges := [⟨⟨100⟩, ⟨300⟩, [keynodes.nrel_installation_method]⟩]
  linkContent := fun _ => ""
  systemIdtf := fun _ => ""

/-- A component 100 with two installation-script links 201 and 202 holding
the same content (the duplicated-specification situation the code's TODO
describes). -/
def ctxC9 : ScMemoryContext where
  elemType := fun a => if a.id = 201 ∨ a.id = 202 then ScType.LinkConst
    else ScType.NodeConst
  accessEdges := []
  commonEdges := [⟨⟨100⟩, ⟨201⟩, [keynodes.nrel_installation_script]⟩,
    ⟨⟨100⟩, ⟨202⟩, [keynodes.nrel_installation_script]⟩]
  linkContent := fun a => if a.id = 201 ∨ a.id = 202 then "make install" else ""
  systemIdtf := fun _ => ""

/-- A component 100 with one non-empty installation-script link 201 and one
empty-content installation-script link 202. -/
def ctxC10 : ScMemoryContext where
  elemType := fun a => if a.id = 201 ∨ a.id = 202 then ScType.LinkConst
    else ScType.NodeConst
  accessEdges := []
  commonEdges := [⟨⟨100⟩, ⟨201⟩, [keynodes.nrel_installation_script]⟩,
    ⟨⟨100⟩, ⟨202⟩, [keynodes.nrel_installation_script]⟩]
  linkContent := fun a => if a.id = 201 then "make install" else ""
  systemIdtf := fun _ => ""

/-! Helper lemmas about the accumulation loops. -/

/-- Membership in a fold that appends `f x` for every visited element. -/
theorem mem_foldl_append {α β : Type} (f : α → List β) :
    ∀ (l : List α) (init : List β) (b : β),
      (b ∈ l.foldl (fun acc x => acc ++ f x) init) ↔
        b ∈ init ∨ ∃ x, x ∈ l ∧ b ∈ f x := by
  intro l
  induction l with
  | nil => intro init b; simp
  | cons a l ih =>
    intro init b
    simp only [List.foldl_cons, ih, List.mem_append, List.mem_cons]
    constructor
    · rintro (⟨h | h⟩ | ⟨x, hx, hb⟩)
      · exact Or.inl h
      · exact Or.inr ⟨a, Or.inl rfl, h⟩
      · exact Or.inr ⟨x, Or.inr hx, hb⟩
    · rintro (h | ⟨x, hx | hx, hb⟩)
      · exact Or.inl (Or.inl h)
      · exact Or.inl (Or.inr (hx ▸ hb))
      · exact Or.inr ⟨x, hx, hb⟩

/-- A fold that pushes `g x` exactly when it is a non-empty string equals the
filtered map. -/
theorem foldl_push_eq_filter_map {α : Type} (g : α → String) :
    ∀ (l : List α) (init : List String),
      l.foldl (fun acc x => if g x == "" then acc else acc ++ [g x]) init =
        init ++ (l.map g).filter (fun s => !(s == "")) := by
  intro l
  induction l with
  | nil => intro init; simp
  | cons a l ih =>
    intro init
    cases h : g a == "" with
    | false =>
      simp only [List.foldl_cons, List.map_cons, List.filter_cons, h,
        Bool.not_false, if_true, Bool.false_eq_true, if_false, ih,
        List.append_assoc, List.singleton_append]
    | true =>
      simp only [List.foldl_cons, List.map_cons, List.filter_cons, h,
        Bool.not_true, if_true, Bool.false_eq_true, if_false, ih]

/-- C2: `SearchUtils::GetSpecificationAddress` fails with
`noAlternativeAddresses` when the component has no alternative-addresses
relation, with `emptyAlternativeSet` when the found set has no members, and
with `noAddressLinks` when the chosen address node has no attached constant
link; in every failure case no address list is returned. -/
theorem getSpecificationAddress_failure_cases (ctx : ScMemoryContext)
    (spec : ScAddr) :
    (iterator5CommonTargets ctx spec ScType.NodeTuple
        keynodes.nrel_alternative_addresses = [] →
      componentUtils.SearchUtils.GetSpecificationAddress ctx spec =
        .error .noAlternativeAddresses) ∧
    (∀ s rest, iterator5CommonTargets ctx spec ScType.NodeTuple
        keynodes.nrel_alternative_addresses = s :: rest →
      isEmpty ctx s = true →
      componentUtils.SearchUtils.GetSpecificationAddress ctx spec =
        .error .emptyAlternativeSet) ∧
    (∀ s rest, iterator5CommonTargets ctx spec ScType.NodeTuple
        keynodes.nrel_alternative_addresses = s :: rest →
      isEmpty ctx s = false →
      getAllWithType ctx (componentUtils.chosenAddress ctx s) ScType.LinkConst = [] →
      componentUtils.SearchUtils.GetSpecificationAddress ctx spec =
        .error .noAddressLinks) ∧
    (∀ e links, componentUtils.SearchUtils.GetSpecificationAddress ctx spec =
        .error e →
      componentUtils.SearchUtils.GetSpecificationAddress ctx spec ≠ .ok links) := by
  refine ⟨?_, ?_, ?_, ?_⟩
  · intro h
    simp only [componentUtils.SearchUtils.GetSpecificationAddress, h]
  · intro s rest h hEmpty
    simp only [componentUtils.SearchUtils.GetSpecificationAddress, h, hEmpty,
      if_true]
  · intro s rest h hEmpty hLinks
    simp only [componentUtils.SearchUtils.GetSpecificationAddress, h, hEmpty,
      Bool.false_eq_true, if_false, hLinks, List.isEmpty_nil, if_true]
  · intro e links hErr hOk
    rw [hErr] at hOk
    exact Except.noConfusion hOk

/-- C2 witness: on `ctxC2` the chosen address node 155 has no attached link,
so the lookup reports `noAddressLinks`. -/
theorem getSpecificationAddress_failure_cases_witness :
    componentUtils.SearchUtils.GetSpecificationAddress ctxC2 ⟨100⟩ =
      .error .noAddressLinks :=
  (getSpecificationAddress_failure_cases ctxC2 ⟨100⟩).2.2.1 ⟨150⟩ [] (by rfl)
    (by rfl) (by rfl)

/-- C3: `SearchUtils::GetRepositoryAddress` fails with `noRepositoryAddress`
when the repository has no repository-address relation, fails with
`noAddressLinks` when the resolved address node has no constant-link child,
and otherwise returns a link attached to the resolved address node. -/
theorem getRepositoryAddress_cases (ctx : ScMemoryContext) (repo : ScAddr) :
    (iterator5CommonTargets ctx repo ScType.NodeConst
        keynodes.nrel_repository_address = [] →
      componentUtils.SearchUtils.GetRepositoryAddress ctx repo =
        .error .noRepositoryAddress) ∧
    (∀ addrNode rest, iterator5CommonTargets ctx repo ScType.NodeConst
        keynodes.nrel_repository_address = addrNode :: rest →
      iterator3Targets ctx addrNode ScType.LinkConst = [] →
      componentUtils.SearchUtils.GetRepositoryAddress ctx repo =
        .error .noAddressLinks) ∧
    (∀ addrNode rest link moreLinks,
      iterator5CommonTargets ctx repo ScType.NodeConst
        keynodes.nrel_repository_address = addrNode :: rest →
      iterator3Targets ctx addrNode ScType.LinkConst = link :: moreLinks →
      componentUtils.SearchUtils.GetRepositoryAddress ctx repo = .ok link ∧
        link ∈ iterator3Targets ctx addrNode ScType.LinkConst) := by
  refine ⟨?_, ?_, ?_⟩
  · intro h
    simp only [componentUtils.SearchUtils.GetRepositoryAddress, h]
  · intro addrNode rest h hLinks
    simp only [componentUtils.SearchUtils.GetRepositoryAddress, h, hLinks]
  · intro addrNode rest link moreLinks h hLinks
    refine ⟨?_, ?_⟩
    · simp only [componentUtils.SearchUtils.GetRepositoryAddress, h, hLinks]
    · rw [hLinks]
      exact List.mem_cons_self link moreLinks

/-- C3 witness: on `ctxC3` the repository address of component 100 resolves
to node 150 and its link 160 is returned. -/
theorem getRepositoryAddress_cases_witness :
    componentUtils.SearchUtils.GetRepositoryAddress ctxC3 ⟨100⟩ = .ok ⟨160⟩ ∧
      ScAddr.mk 160 ∈ iterator3Targets ctxC3 ⟨150⟩ ScType.LinkConst :=
  (getRepositoryAddress_cases ctxC3 ⟨100⟩).2.2 ⟨150⟩ [] ⟨160⟩ [] (by rfl) (by rfl)

/-- C6: the address selection of `SearchUtils::GetSpecificationAddress`
picks the `rrel_1`-marked (primary) member when one exists, otherwise the
first member of the set in iteration order; it is a pure function of the
store snapshot, so two calls on the same unchanged snapshot select the same
member. -/
theorem chosenAddress_primary_deterministic (ctx : ScMemoryContext)
    (set : ScAddr) :
    (∀ p rest, iterator5AccessWithRole ctx set ScType.Unknown keynodes.rrel_1 =
        p :: rest →
      p.IsValid = true → componentUtils.chosenAddress ctx set = p) ∧
    (iterator5AccessWithRole ctx set ScType.Unknown keynodes.rrel_1 = [] →
      ∀ m rest, iterator3Targets ctx set ScType.Unknown = m :: rest →
        componentUtils.chosenAddress ctx set = m) ∧
    (∀ ctxB, ctxB = ctx →
      componentUtils.chosenAddress ctxB set =
        componentUtils.chosenAddress ctx set) := by
  refine ⟨?_, ?_, ?_⟩
  · intro p rest h hValid
    simp only [componentUtils.chosenAddress, getFirstFromSet, h, hValid, if_true]
  · intro h m rest hMem
    simp only [componentUtils.chosenAddress, getFirstFromSet, h, getAnyFromSet,
      hMem, ScAddr.Empty, ScAddr.IsValid]
    simp only [ne_eq, decide_not]
    rfl
  · intro ctxB hEq
    rw [hEq]

/-- C6 witness: on `ctxC6` member 156 of set 150 is marked primary and is
selected over member 155. -/
theorem chosenAddress_primary_deterministic_witness :
    componentUtils.chosenAddress ctxC6 ⟨150⟩ = ⟨156⟩ :=
  (chosenAddress_primary_deterministic ctxC6 ⟨150⟩).1 ⟨156⟩ [] (by rfl) (by rfl)

/-- C7: `SearchUtils::GetComponentDependencies` returns exactly the union of
the constant-node members of all dependency sets related to the component by
`nrel_component_dependencies`, and the empty list when no such relation
exists. -/
theorem getComponentDependencies_union (ctx : ScMemoryContext)
    (comp : ScAddr) :
    (∀ a, a ∈ componentUtils.SearchUtils.GetComponentDependencies ctx comp ↔
      ∃ s, s ∈ iterator5CommonTargets ctx comp ScType.NodeConst
          keynodes.nrel_component_dependencies ∧
        a ∈ getAllWithType ctx s ScType.NodeConst) ∧
    (iterator5CommonTargets ctx comp ScType.NodeConst
        keynodes.nrel_component_dependencies = [] →
      componentUtils.SearchUtils.GetComponentDependencies ctx comp = []) := by
  constructor
  · intro a
    unfold componentUtils.SearchUtils.GetComponentDependencies
    simpa using
      mem_foldl_append (fun s => getAllWithType ctx s ScType.NodeConst)
        (iterator5CommonTargets ctx comp ScType.NodeConst
          keynodes.nrel_component_dependencies) [] a
  · intro h
    simp only [componentUtils.SearchUtils.GetComponentDependencies, h,
      List.foldl_nil]

/-- C7 witness: on the empty store a component has no dependency relation and
the returned vector is empty. -/
theorem getComponentDependencies_union_witness :
    componentUtils.SearchUtils.GetComponentDependencies ctxEmpty ⟨100⟩ = [] :=
  (getComponentDependencies_union ctxEmpty ⟨100⟩).2 (by rfl)

/-- C8: `InstallUtils::IsReusable` holds exactly when an access arc from
`concept_reusable_component` to the component exists, and
`InstallUtils::IsComponentInstallationMethodValid` holds exactly when an
`nrel_installation_method` relation exists (given that the store only links
valid addresses); the first reads only the access-arc table and the second
only the common-arc table and element types, so neither check depends on the
other. -/
theorem installer_preconditions_independent (ctx : ScMemoryContext)
    (comp : ScAddr) :
    (componentUtils.InstallUtils.IsReusable ctx comp = true ↔
      ∃ e, e ∈ ctx.accessEdges ∧
        e.src = keynodes.concept_reusable_component ∧ e.tgt = comp) ∧
    ((∀ e, e ∈ ctx.commonEdges → e.tgt.IsValid = true) →
      (componentUtils.InstallUtils.IsComponentInstallationMethodValid ctx comp =
          true ↔
        iterator5CommonTargets ctx comp ScType.NodeConst
          keynodes.nrel_installation_method ≠ [])) ∧
    (∀ ctxB, ctxB.accessEdges = ctx.accessEdges →
      componentUtils.InstallUtils.IsReusable ctxB comp =
        componentUtils.InstallUtils.IsReusable ctx comp) ∧
    (∀ ctxB, ctxB.commonEdges = ctx.commonEdges →
      (∀ a, ctxB.elemType a = ctx.elemType a) →
      componentUtils.InstallUtils.IsComponentInstallationMethodValid ctxB comp =
        componentUtils.InstallUtils.IsComponentInstallationMethodValid ctx
          comp) := by
  refine ⟨?_, ?_, ?_, ?_⟩
  · simp only [componentUtils.InstallUtils.IsReusable, Bool.not_eq_true',
      List.isEmpty_eq_false_iff_exists_mem, List.mem_filter, Bool.and_eq_true,
      beq_iff_eq]
  · intro hwf
    unfold componentUtils.InstallUtils.IsComponentInstallationMethodValid
    unfold componentUtils.SearchUtils.GetComponentInstallationMethod
    cases h : iterator5CommonTargets ctx comp ScType.NodeConst
        keynodes.nrel_installation_method with
    | nil =>
      simp [ScAddr.Empty, ScAddr.IsValid]
    | cons m rest =>
      have hm : m ∈ iterator5CommonTargets ctx comp ScType.NodeConst
          keynodes.nrel_installation_method := by
        rw [h]; exact List.mem_cons_self m rest
      have : m.IsValid = true := by
        unfold iterator5CommonTargets at hm
        obtain ⟨e, heFilter, hEq⟩ := List.mem_map.mp hm
        exact hEq ▸ hwf e (List.mem_of_mem_filter heFilter)
      simp [this]
  · intro ctxB hAcc
    unfold componentUtils.InstallUtils.IsReusable
    rw [hAcc]
  · intro ctxB hCommon hType
    have hIter : iterator5CommonTargets ctxB comp ScType.NodeConst
        keynodes.nrel_installation_method =
        iterator5CommonTargets ctx comp ScType.NodeConst
          keynodes.nrel_installation_method := by
      unfold iterator5CommonTargets
      rw [hCommon]
      have hfun : (fun (e : CommonEdge) =>
          e.src == comp && ScType.NodeConst.subsumes (ctxB.elemType e.tgt) &&
            e.rels.contains keynodes.nrel_installation_method) =
          (fun (e : CommonEdge) =>
          e.src == comp && ScType.NodeConst.subsumes (ctx.elemType e.tgt) &&
            e.rels.contains keynodes.nrel_installation_method) := by
        funext e
        rw [hType]
      rw [hfun]
    unfold componentUtils.InstallUtils.IsComponentInstallationMethodValid
    unfold componentUtils.SearchUtils.GetComponentInstallationMethod
    rw [hIter]

/-- C8 witness: on `ctxC8` component 100 is reusable and its installation
method relation exists, so the method check succeeds. -/
theorem installer_preconditions_independent_witness :
    componentUtils.InstallUtils.IsComponentInstallationMethodValid ctxC8 ⟨100⟩ =
      true :=
  ((installer_preconditions_independent ctxC8 ⟨100⟩).2.1 (by decide)).mpr
    (by decide)

/-- C9 counterexample: `InstallUtils::GetInstallScripts` does not dedupe by
content.  On `ctxC9`, where two installation-script relations carry the same
content (the duplicated-specification situation described by the code's own
TODO comment), the returned list holds that content twice. -/
theorem getInstallScripts_duplicates_cex :
    componentUtils.InstallUtils.GetInstallScripts ctxC9 ⟨100⟩ =
      ["make install", "make install"] ∧
    ¬ (componentUtils.InstallUtils.GetInstallScripts ctxC9 ⟨100⟩).Nodup := by
  have h : componentUtils.InstallUtils.GetInstallScripts ctxC9 ⟨100⟩ =
      ["make install", "make install"] := by rfl
  refine ⟨h, ?_⟩
  rw [h]
  simp

/-- C9 amended: `InstallUtils::GetInstallScripts` preserves duplicates — it
returns one entry per installation-script relation instance, in iteration
order, dropping only empty contents; no deduplication by content happens. -/
theorem getInstallScripts_preserves_duplicates (ctx : ScMemoryContext)
    (comp : ScAddr) :
    componentUtils.InstallUtils.GetInstallScripts ctx comp =
      ((iterator5CommonTargets ctx comp ScType.LinkConst
          keynodes.nrel_installation_script).map ctx.linkContent).filter
        (fun s => !(s == "")) := by
  unfold componentUtils.InstallUtils.GetInstallScripts
  simpa using
    foldl_push_eq_filter_map ctx.linkContent
      (iterator5CommonTargets ctx comp ScType.LinkConst
        keynodes.nrel_installation_script) []

/-- C10: every script returned by `InstallUtils::GetInstallScripts` is a
non-empty string: a script link whose content is the empty string is
silently omitted from the returned list. -/
theorem getInstallScripts_nonempty (ctx : ScMemoryContext) (comp : ScAddr)
    (s : String) :
    s ∈ componentUtils.InstallUtils.GetInstallScripts ctx comp → s ≠ "" := by
  intro hMem
  have hc : componentUtils.InstallUtils.GetInstallScripts ctx comp =
      ((iterator5CommonTargets ctx comp ScType.LinkConst
          keynodes.nrel_installation_script).map ctx.linkContent).filter
        (fun t => !(t == "")) := by
    unfold componentUtils.InstallUtils.GetInstallScripts
    simpa using
      foldl_push_eq_filter_map ctx.linkContent
        (iterator5CommonTargets ctx comp ScType.LinkConst
          keynodes.nrel_installation_script) []
  rw [hc] at hMem
  have := List.of_mem_filter hMem
  simpa using this

/-- C10 witness: on `ctxC10` (one script link with content and one with empty
content) the content of the non-empty script link is returned and is
non-empty; the empty-content link is omitted. -/
theorem getInstallScripts_nonempty_witness : ("make install" : String) ≠ "" :=
  getInstallScripts_nonempty ctxC10 ⟨100⟩ "make install" (by decide)

/-- C1 counterexample: on `ctxC1` the repository's only address link 160
matches no hosting-scheme class (`getUrlLinkClass` returns the invalid
address), yet `DownloaderHandler::Download` completes with no reported
failure and performs no fetch — the link is silently skipped instead of
failing with an unsupported-hosting-scheme error (no such error exists in
the code). -/
theorem download_unsupported_scheme_cex :
    DownloaderHandler.getUrlLinkClass ctxC1 ⟨160⟩ = ScAddr.Empty ∧
    componentUtils.SearchUtils.GetRepositoryAddress ctxC1 ⟨100⟩ = .ok ⟨160⟩ ∧
    DownloaderHandler.Download envOk ctxC1 ⟨100⟩ =
      { mkdirCalls := ["/tmp/downloads/comp"], gitDownloads := [],
        error := none } :=
  ⟨rfl, rfl, rfl⟩

/-- The link loop of `DownloaderHandler::Download` leaves the accumulator
unchanged when no visited link is classified as a GitHub URL. -/
theorem processLinks_foldl_skip (ctx : ScMemoryContext) (dp ss : String) :
    ∀ (links : List ScAddr) (init : List (String × String)),
      (∀ l, l ∈ links →
        DownloaderHandler.getUrlLinkClass ctx l ≠ keynodes.concept_github_url) →
      links.foldl
        (fun acc currentAddressLinkAddr =>
          if DownloaderHandler.getUrlLinkClass ctx currentAddressLinkAddr =
              keynodes.concept_github_url then
            acc ++ [(ctx.linkContent currentAddressLinkAddr ++
              (SVN_TRUNK ++ (DIRECTORY_DELIMETR ++ ss)), dp)]
          else acc) init = init := by
  intro links
  induction links with
  | nil => intro init h; rfl
  | cons a t ih =>
    intro init h
    simp only [List.foldl_cons]
    rw [if_neg (h a (List.mem_cons_self a t))]
    exact ih init fun l hl => h l (List.mem_cons_of_mem a hl)

/-- Every pair produced by the link loop of `DownloaderHandler::Download`
originates from a link classified as a GitHub URL. -/
theorem processLinks_foldl_mem (ctx : ScMemoryContext) (dp ss : String) :
    ∀ (links : List ScAddr) (init : List (String × String))
      (p : String × String),
      p ∈ links.foldl
        (fun acc currentAddressLinkAddr =>
          if DownloaderHandler.getUrlLinkClass ctx currentAddressLinkAddr =
              keynodes.concept_github_url then
            acc ++ [(ctx.linkContent currentAddressLinkAddr ++
              (SVN_TRUNK ++ (DIRECTORY_DELIMETR ++ ss)), dp)]
          else acc) init →
      p ∈ init ∨ ∃ l, l ∈ links ∧
        DownloaderHandler.getUrlLinkClass ctx l = keynodes.concept_github_url ∧
        p = (ctx.linkContent l ++ (SVN_TRUNK ++ (DIRECTORY_DELIMETR ++ ss)), dp) := by
  intro links
  induction links with
  | nil => intro init p hp; exact Or.inl hp
  | cons a t ih =>
    intro init p hp
    simp only [List.foldl_cons] at hp
    by_cases ha : DownloaderHandler.getUrlLinkClass ctx a =
        keynodes.concept_github_url
    · rw [if_pos ha] at hp
      rcases ih _ p hp with hi | ⟨l, hl, hc, hpe⟩
      · rcases List.mem_append.mp hi with h1 | h1
        · exact Or.inl h1
        · exact Or.inr ⟨a, List.mem_cons_self a t, ha, List.mem_singleton.mp h1⟩
      · exact Or.inr ⟨l, List.mem_cons_of_mem a hl, hc, hpe⟩
    · rw [if_neg ha] at hp
      rcases ih init p hp with hi | ⟨l, hl, hc, hpe⟩
      · exact Or.inl hi
      · exact Or.inr ⟨l, List.mem_cons_of_mem a hl, hc, hpe⟩

/-- C1 amended: an address link that is not classified as a GitHub URL — in
particular one matching no known hosting-scheme class, or a Google-Drive
link — is silently skipped by `DownloaderHandler::Download`: the run reports
no failure for it and performs no fetch.  This holds on both downloadable
paths (the reusable-specification link list and the single repository link),
and unconditionally every fetch the operation does perform originates from a
GitHub-classified link. -/
theorem download_skips_non_github_links (env : DownloaderEnv)
    (ctx : ScMemoryContext) (nodeAddr : ScAddr) :
    (∀ links,
      DownloaderHandler.getDownloadableClass ctx nodeAddr =
        keynodes.concept_reusable_component_specification →
      env.mkdirs (env.downloadDir ++ DIRECTORY_DELIMETR ++
        ctx.systemIdtf nodeAddr) = true →
      componentUtils.SearchUtils.GetSpecificationAddress ctx nodeAddr =
        .ok links →
      (∀ l, l ∈ links →
        DownloaderHandler.getUrlLinkClass ctx l ≠ keynodes.concept_github_url) →
      DownloaderHandler.Download env ctx nodeAddr =
        { mkdirCalls := [env.downloadDir ++ DIRECTORY_DELIMETR ++
            ctx.systemIdtf nodeAddr],
          gitDownloads := [], error := none }) ∧
    (∀ addressLinkAddr,
      DownloaderHandler.getDownloadableClass ctx nodeAddr =
        keynodes.concept_repository →
      env.mkdirs (env.downloadDir ++ DIRECTORY_DELIMETR ++
        ctx.systemIdtf nodeAddr) = true →
      componentUtils.SearchUtils.GetRepositoryAddress ctx nodeAddr =
        .ok addressLinkAddr →
      DownloaderHandler.getUrlLinkClass ctx addressLinkAddr ≠
        keynodes.concept_github_url →
      DownloaderHandler.Download env ctx nodeAddr =
        { mkdirCalls := [env.downloadDir ++ DIRECTORY_DELIMETR ++
            ctx.systemIdtf nodeAddr],
          gitDownloads := [], error := none }) ∧
    (∀ p, p ∈ (DownloaderHandler.Download env ctx nodeAddr).gitDownloads →
      ∃ l suffix,
        DownloaderHandler.getUrlLinkClass ctx l = keynodes.concept_github_url ∧
        p = (ctx.linkContent l ++ suffix,
          env.downloadDir ++ DIRECTORY_DELIMETR ++ ctx.systemIdtf nodeAddr)) := by
  refine ⟨?_, ?_, ?_⟩
  · intro links hClass hMkdir hAddr hUrl
    unfold DownloaderHandler.Download
    rw [hClass]
    simp only [hMkdir, hAddr, keynodes.concept_reusable_component_specification,
      ScAddr.IsValid, ScAddr.mk.injEq, DownloaderHandler.processLinks]
    rw [processLinks_foldl_skip ctx
      (env.downloadDir ++ DIRECTORY_DELIMETR ++ ctx.systemIdtf nodeAddr)
      SPECIFICATION_FILENAME links [] hUrl]
    simp
  · intro addressLinkAddr hClass hMkdir hAddr hUrl
    unfold DownloaderHandler.Download
    rw [hClass]
    simp only [hMkdir, hAddr, keynodes.concept_repository,
      keynodes.concept_reusable_component_specification, ScAddr.IsValid,
      ScAddr.mk.injEq, DownloaderHandler.processLinks, List.foldl_cons,
      List.foldl_nil, hUrl, if_false]
    simp [hUrl]
  · intro p hp
    by_cases h1 : (DownloaderHandler.getDownloadableClass ctx nodeAddr).IsValid =
        true
    · simp only [DownloaderHandler.Download, h1, Bool.true_eq_false, if_false] at hp
      by_cases h2 : env.mkdirs (env.downloadDir ++ DIRECTORY_DELIMETR ++
          ctx.systemIdtf nodeAddr) = false
      · simp only [h2, if_true] at hp
        simp at hp
      · rw [Bool.not_eq_false] at h2
        simp only [h2, Bool.true_eq_false, if_false] at hp
        by_cases h3 : DownloaderHandler.getDownloadableClass ctx nodeAddr =
            keynodes.concept_reusable_component_specification
        · simp only [h3, if_true] at hp
          cases hres : componentUtils.SearchUtils.GetSpecificationAddress ctx
              nodeAddr with
          | error e => simp only [hres] at hp; simp at hp
          | ok links =>
            simp only [hres, DownloaderHandler.processLinks] at hp
            rcases processLinks_foldl_mem ctx
                (env.downloadDir ++ DIRECTORY_DELIMETR ++ ctx.systemIdtf nodeAddr)
                SPECIFICATION_FILENAME links [] p hp with hi | ⟨l, _, hc, hpe⟩
            · simp at hi
            · exact ⟨l, SVN_TRUNK ++ (DIRECTORY_DELIMETR ++ SPECIFICATION_FILENAME),
                hc, hpe⟩
        · simp only [h3, if_false] at hp
          by_cases h4 : DownloaderHandler.getDownloadableClass ctx nodeAddr =
              keynodes.concept_repository
          · simp only [h4, if_true] at hp
            cases hres : componentUtils.SearchUtils.GetRepositoryAddress ctx
                nodeAddr with
            | error e => simp only [hres] at hp; simp at hp
            | ok addressLinkAddr =>
              simp only [hres, DownloaderHandler.processLinks] at hp
              rcases processLinks_foldl_mem ctx
                  (env.downloadDir ++ DIRECTORY_DELIMETR ++ ctx.systemIdtf nodeAddr)
                  "" [addressLinkAddr] [] p hp with hi | ⟨l, _, hc, hpe⟩
              · simp at hi
              · exact ⟨l, SVN_TRUNK ++ (DIRECTORY_DELIMETR ++ ""), hc, hpe⟩
          · simp only [h4, if_false] at hp
            simp at hp
    · rw [Bool.not_eq_true] at h1
      simp only [DownloaderHandler.Download, h1, if_true] at hp
      simp at hp

/-- C1 amended witness: on `ctxC1b` the reusable specification's only
address link is Google-Drive-classified, and the download run silently
skips it: no failure, no fetch. -/
theorem download_skips_non_github_links_witness :
    DownloaderHandler.Download envOk ctxC1b ⟨100⟩ =
      { mkdirCalls := [envOk.downloadDir ++ DIRECTORY_DELIMETR ++
          ctxC1b.systemIdtf ⟨100⟩],
        gitDownloads := [], error := none } :=
  (download_skips_non_github_links envOk ctxC1b ⟨100⟩).1 [⟨160⟩] (by rfl)
    (by rfl) (by rfl) (by decide)

/-- C4: `DownloaderHandler::Download` builds the destination directory as
`m_downloadDir / humanReadableComponentId`; when `sc_fs_mkdirs` fails on
that path it reports the directory-creation failure and performs no
fetch. -/
theorem download_dir_create_failed (env : DownloaderEnv)
    (ctx : ScMemoryContext) (nodeAddr : ScAddr) :
    (DownloaderHandler.getDownloadableClass ctx nodeAddr).IsValid = true →
    env.mkdirs (env.downloadDir ++ DIRECTORY_DELIMETR ++
      ctx.systemIdtf nodeAddr) = false →
    DownloaderHandler.Download env ctx nodeAddr =
      { mkdirCalls := [env.downloadDir ++ DIRECTORY_DELIMETR ++
          ctx.systemIdtf nodeAddr],
        gitDownloads := [], error := some .dirCreateFailed } := by
  intro hClass hMkdir
  unfold DownloaderHandler.Download
  simp only [hClass, hMkdir, Bool.true_eq_false, if_false, if_true]

/-- C4 witness: on `ctxC4` with an environment whose directory creation
always fails, the download of component 100 stops with the
directory-creation failure. -/
theorem download_dir_create_failed_witness :
    DownloaderHandler.Download envMkdirFails ctxC4 ⟨100⟩ =
      { mkdirCalls := [envMkdirFails.downloadDir ++ DIRECTORY_DELIMETR ++
          ctxC4.systemIdtf ⟨100⟩],
        gitDownloads := [], error := some .dirCreateFailed } :=
  download_dir_create_failed envMkdirFails ctxC4 ⟨100⟩ (by decide) (by rfl)

/-- C5: when the component belongs to neither downloadable class
(`concept_repository` nor `concept_reusable_component_specification`),
`DownloaderHandler::Download` returns after reporting the failure and before
any filesystem operation: no `sc_fs_mkdirs` call is made and no fetch is
attempted. -/
theorem download_class_not_found_no_side_effects (env : DownloaderEnv)
    (ctx : ScMemoryContext) (nodeAddr : ScAddr) :
    helperCheckEdge ctx keynodes.concept_repository nodeAddr = false →
    helperCheckEdge ctx keynodes.concept_reusable_component_specification
      nodeAddr = false →
    DownloaderHandler.Download env ctx nodeAddr =
      { mkdirCalls := [], gitDownloads := [], error := some .classNotFound } := by
  intro hRepo hSpec
  have hClass : DownloaderHandler.getDownloadableClass ctx nodeAddr =
      ScAddr.Empty := by
    simp [DownloaderHandler.getDownloadableClass, List.find?, hRepo, hSpec]
  unfold DownloaderHandler.Download
  rw [hClass]
  simp [ScAddr.Empty, ScAddr.IsValid]

/-- C5 witness: on the empty store component 100 has no downloadable class
and the download reports the failure with no side effect. -/
theorem download_class_not_found_no_side_effects_witness :
    DownloaderHandler.Download envOk ctxEmpty ⟨100⟩ =
      { mkdirCalls := [], gitDownloads := [], error := some .classNotFound } :=
  download_class_not_found_no_side_effects envOk ctxEmpty ⟨100⟩ (by rfl) (by rfl)

end ScCompMgr
